import Mathlib

/-!
Shallow embedding of the `big_medicine` reservation coordinator
(`src/big_medicine/core/server/core.py` and
`src/big_medicine/core/server/message.py`) and proofs about its
reserve / update / query workflows.

The Cassandra store is modelled explicitly: the medicine catalog is an
association list from names to integer counts, and reservation lines are a
list of rows.  The driver primitives assumed by the design (conditional
update returning an applied flag, row selects returning rows in store
order, inserts, deletes) are modelled as pure functions on that state;
store-returned order is modelled as insertion order.  Handlers are pure
functions from a request and a store to a new store and a response;
the fresh UUIDs drawn by a handler (`uuid.uuid4()`) are passed in as
explicit parameters.  All workflows are modelled sequentially (one handler
running against the store at a time), which is enough to settle every
claim below: the refuted ones already fail without interference.
-/

namespace BigMedicine

/-- `message.MedicineEntry`: one requested medicine with a quantity.
`count` is a Python `int`, hence `Int` (no positivity validation). -/
structure MedicineEntry where
  name : String
  count : Int
deriving DecidableEq, Repr

/-- `message.MedicineReservations`: body of `POST /reserve`. -/
structure MedicineReservations where
  entries : List MedicineEntry
  account_name : String
deriving DecidableEq, Repr

/-- `message.UpdateReservation`: body of `POST /update`. -/
structure UpdateReservation where
  id : String
  entries : List MedicineEntry
deriving DecidableEq, Repr

/-- `message.ResponseType`: the three response tags. -/
inductive ResponseType where
  | INFO
  | ERROR
  | EXCEPTION
deriving DecidableEq, Repr

/-- `message.ResponseItem`: the response envelope `{type, msg}`. -/
structure ResponseItem where
  type : ResponseType
  msg : String := "-"
deriving DecidableEq, Repr

/-- `message.ReservationEntryItem`: one aggregated reservation object. -/
structure ReservationEntryItem where
  id : String
  account_name : String
  entries : List MedicineEntry
deriving DecidableEq, Repr

/-- `message.ReservationResponse`: `ResponseItem` plus the reservation. -/
structure ReservationResponse where
  type : ResponseType
  msg : String := "-"
  id : String
  account_name : String
  entries : List MedicineEntry
deriving DecidableEq, Repr

/-- The medicine catalog: the `medicine` table, one `(name, count)` row per
medicine.  Descriptive attributes (substitutes, side effects, ...) are
read-only for the core and never touched by the workflows, so they are
omitted from the row model. -/
abbrev Catalog := List (String × Int)

/-- `SELECT count FROM medicine WHERE name = ?`: the count of the first
row with the given name, `none` when no row exists. -/
def lookupCount : Catalog → String → Option Int
  | [], _ => none
  | (n, c) :: rest, name => if n = name then some c else lookupCount rest name

/-- Overwrite the count of the named row (no-op when the row is absent). -/
def setCount : Catalog → String → Int → Catalog
  | [], _, _ => []
  | (n, c) :: rest, name, v =>
      if n = name then (n, v) :: rest else (n, c) :: setCount rest name v

/-- The driver CAS assumed by the design:
`UPDATE medicine SET count = ? WHERE name = ? IF count = ?`.
Applied iff the stored count equals `expected`; returns the new catalog
and the applied flag.  A missing row never matches, so the write is not
applied then. -/
def casSetCount (cat : Catalog) (name : String) (newCount expected : Int) :
    Catalog × Bool :=
  if lookupCount cat name = some expected then (setCount cat name newCount, true)
  else (cat, false)

/-- One row of the `reservation` table:
`(reservation_id, id, account_name, medicine, count)`.  UUID values are
modelled as their canonical strings. -/
structure ReservationRow where
  reservation_id : String
  line_id : String
  account_name : String
  medicine : String
  count : Int
deriving DecidableEq, Repr

/-- The whole store state: catalog plus reservation lines.  Lines appear
in insertion order, which models the store-returned order of selects. -/
structure Store where
  catalog : Catalog
  reservations : List ReservationRow
deriving DecidableEq, Repr

/-- `core.get_current_counts`: read the count for each entry name
(concurrent reads against one snapshot; result order matches input
order). -/
def get_current_counts (cat : Catalog) (entries : List MedicineEntry) :
    List (Option Int) :=
  entries.map (fun e => lookupCount cat e.name)

/-- `core.medicine_does_not_exist_response`. -/
def medicine_does_not_exist_response (m : MedicineEntry) : ResponseItem :=
  { type := ResponseType.ERROR
    msg := "Medicine " ++ m.name ++ " does not exist" }

/-- The shortfall message built in `reserve` and `update`. -/
def cannotReserveMsg (name : String) (requested available : Int) : String :=
  "Cannot reserve '" ++ name ++ "': requested " ++ toString requested ++
    " units while there are only " ++ toString available

/-- The per-entry loop of `core.reserve` (lines 235-262): walk the zipped
`(entry, snapshot count)` pairs in input order; missing medicine or a
shortfall returns an `ERROR` response at once, keeping whatever catalog
changes earlier iterations committed (the source has no compensation);
otherwise issue the conditional decrement.  The source never inspects the
applied flag of the CAS, so neither does the model: the `.1` projection
drops it exactly as `session.execute(statement)`'s result is dropped. -/
def reserveCas : List (MedicineEntry × Option Int) → Catalog →
    Catalog × Option ResponseItem
  | [], cat => (cat, none)
  | (m, none) :: _, cat => (cat, some (medicine_does_not_exist_response m))
  | (m, some current) :: rest, cat =>
      if m.count > current then
        (cat, some { type := ResponseType.ERROR
                     msg := cannotReserveMsg m.name m.count current })
      else
        reserveCas rest (casSetCount cat m.name (current - m.count) current).1

/-- The insertion loop of `core.reserve` / `core.update`: one row per
entry under one `reservation_id`, each with its own fresh line id. -/
def reservationLines (rid : String) (lineIds : Nat → String) (acct : String)
    (entries : List MedicineEntry) : List ReservationRow :=
  entries.enum.map (fun p =>
    { reservation_id := rid
      line_id := lineIds p.1
      account_name := acct
      medicine := p.2.name
      count := p.2.count })

/-- `core.reserve` (`POST /reserve`): read all counts, run the CAS loop,
then insert one line per entry under a fresh `reservation_id` and respond
`INFO`.  `rid` is the fresh `uuid.uuid4()` drawn for the reservation and
`lineIds` the fresh UUIDs drawn for the lines. -/
def reserve (item : MedicineReservations) (rid : String)
    (lineIds : Nat → String) (st : Store) : Store × ResponseItem :=
  let counts := get_current_counts st.catalog item.entries
  match reserveCas (item.entries.zip counts) st.catalog with
  | (cat, some resp) => ({ st with catalog := cat }, resp)
  | (cat, none) =>
      ({ catalog := cat
         reservations := st.reservations ++
           reservationLines rid lineIds item.account_name item.entries },
       { type := ResponseType.INFO
         msg := "Reserved successfully: " ++ rid })

/-- Catalog count of a medicine, 0 when absent (for stating
conservation). -/
def catalogCount (cat : Catalog) (name : String) : Int :=
  (lookupCount cat name).getD 0

/-- Total quantity of one medicine over all stored reservation lines. -/
def reservedTotal (rows : List ReservationRow) (name : String) : Int :=
  ((rows.filter (fun r => r.medicine = name)).map (fun r => r.count)).sum

/-- The conserved quantity of spec §8.2 for one medicine. -/
def conservationSum (st : Store) (name : String) : Int :=
  catalogCount st.catalog name + reservedTotal st.reservations name

/-- A fixed well-formed UUID string, standing for a concrete
`uuid.uuid4()` draw in concrete evaluations. -/
def sampleRid : String := "00000000-0000-4000-8000-000000000000"

/-- A concrete supply of per-line UUID draws. -/
def sampleLineIds : Nat → String := fun n =>
  "00000000-0000-4000-8000-00000000000" ++ toString n

/-- Model of Python `uuid.UUID(str(id))` acceptance (standard-library
code outside this repository, assumed by the design): a string parses
iff it has canonical UUID form, abstracted here to its 36-character
length; a parsed UUID value is identified with its string.  No claim
below depends on the exact grammar, only on parse success or failure. -/
def isUuidFormat (s : String) : Bool := s.length = 36

/-- The `uuid.UUID(str(id))` call guarded by `try`/`except ValueError`
in `retrieve_single_reservation`. -/
def parseUuid (s : String) : Option String :=
  if isUuidFormat s then some s else none

/-- `SELECT ... FROM reservation WHERE reservation_id = ?`: all lines of
one reservation, in store order. -/
def selectReservation (rows : List ReservationRow) (u : String) :
    List ReservationRow :=
  rows.filter (fun r => r.reservation_id = u)

/-- `core.retrieve_single_reservation`: parse the id, select its lines;
no lines means no such reservation, otherwise build the reservation
object, taking `account_name` from the first row. -/
def retrieve_single_reservation (rows : List ReservationRow) (id : String) :
    ReservationEntryItem ⊕ ResponseItem :=
  match parseUuid id with
  | none => Sum.inr { type := ResponseType.ERROR, msg := "Invalid UUID" }
  | some u =>
      match selectReservation rows u with
      | [] => Sum.inr { type := ResponseType.ERROR, msg := "No such reservation" }
      | first :: rest =>
          Sum.inl { id := id
                    account_name := first.account_name
                    entries := (first :: rest).map (fun r =>
                      { name := r.medicine, count := r.count }) }

/-- `core.query` (`GET /query`): wrap the single-reservation lookup in a
`ReservationResponse`, or pass the error through. -/
def query (rows : List ReservationRow) (id : String) :
    ReservationResponse ⊕ ResponseItem :=
  match retrieve_single_reservation rows id with
  | Sum.inl it =>
      Sum.inl { type := ResponseType.INFO
                id := it.id
                account_name := it.account_name
                entries := it.entries }
  | Sum.inr resp => Sum.inr resp

/-- The dict `{e.name: e.count for e in reservation.entries}` with
`.get(name, 0)` in `core.update`: for duplicate names the last entry
wins; absent names default to 0. -/
def prevReserved (entries : List MedicineEntry) (name : String) : Int :=
  match entries.reverse.find? (fun e => e.name = name) with
  | some e => e.count
  | none => 0

/-- The per-entry loop of `core.update` (lines 319-347): like the reserve
loop but against `limit = current + prev_reserved.get(name, 0)`, writing
`limit - entry.count` expecting `current`.  As in the source, the CAS
applied flag is dropped and nothing compensates on early return. -/
def updateCas (prev : String → Int) :
    List (MedicineEntry × Option Int) → Catalog → Catalog × Option ResponseItem
  | [], cat => (cat, none)
  | (m, none) :: _, cat => (cat, some (medicine_does_not_exist_response m))
  | (m, some current) :: rest, cat =>
      if m.count > current + prev m.name then
        (cat, some { type := ResponseType.ERROR
                     msg := cannotReserveMsg m.name m.count
                       (current + prev m.name) })
      else
        updateCas prev rest
          (casSetCount cat m.name (current + prev m.name - m.count) current).1

/-- `core.update` (`POST /update`): load the reservation, run the CAS
loop against per-medicine limits, then delete all lines of the id and
insert the new entries under the same `reservation_id` and
`account_name`. -/
def update (item : UpdateReservation) (lineIds : Nat → String) (st : Store) :
    Store × ResponseItem :=
  match retrieve_single_reservation st.reservations item.id with
  | Sum.inr resp => (st, resp)
  | Sum.inl reservation =>
      let counts := get_current_counts st.catalog item.entries
      let prev := prevReserved reservation.entries
      match updateCas prev (item.entries.zip counts) st.catalog with
      | (cat, some resp) => ({ st with catalog := cat }, resp)
      | (cat, none) =>
          ({ catalog := cat
             reservations :=
               (st.reservations.filter
                 (fun r => r.reservation_id ≠ reservation.id)) ++
               reservationLines reservation.id lineIds
                 reservation.account_name item.entries },
           { type := ResponseType.INFO
             msg := "Update successfully: " ++ reservation.id })

/-- Python `itertools.groupby` keyed by `reservation_id`: maximal runs of
consecutive rows with equal key, each run as its first row plus the rest
of the run. -/
def groupRuns : List ReservationRow → List (ReservationRow × List ReservationRow)
  | [] => []
  | r :: rest =>
      match groupRuns rest with
      | [] => [(r, [])]
      | (s, run) :: gs =>
          if r.reservation_id = s.reservation_id then (r, s :: run) :: gs
          else (r, []) :: (s, run) :: gs

/-- `core.retrieve_reservations`: group the store-returned rows with
`itertools.groupby` on `reservation_id` and emit one reservation object
per group, its `account_name` taken from the group's first row. -/
def retrieve_reservations (rows : List ReservationRow) :
    List ReservationEntryItem :=
  (groupRuns rows).map (fun g =>
    { id := g.1.reservation_id
      account_name := g.1.account_name
      entries := (g.1 :: g.2).map (fun r =>
        { name := r.medicine, count := r.count }) })

/-- Outcome of running a Python handler body: a returned value, or an
uncaught exception escaping across the HTTP boundary. -/
inductive PyOutcome (α : Type) where
  | ok : α → PyOutcome α
  | raised : String → PyOutcome α
deriving DecidableEq, Repr

/-- `message.MedicineResponse`, its `medicine` dict modelled as the
catalog row it is built from. -/
structure MedicineResponse where
  type : ResponseType
  msg : String := "-"
  medicine : String × Int
deriving DecidableEq, Repr

/-- `core.medicine` (`GET /medicine`): `session.execute(query).one()`
yields the first matching row, or `None` when there is none; `dict(obj)`
applied to `None` raises `TypeError`, and no handler code catches it. -/
def medicine (cat : Catalog) (name : String) : PyOutcome MedicineResponse :=
  match (cat.filter (fun p => p.1 = name)).head? with
  | none => PyOutcome.raised "TypeError"
  | some row => PyOutcome.ok { type := ResponseType.INFO, medicine := row }

/-- The keys of the consecutive groups built by `retrieve_reservations`. -/
def runKeys (rows : List ReservationRow) : List String :=
  (groupRuns rows).map (fun g => g.1.reservation_id)

/-! ## Helper lemmas about the store primitives -/

theorem lookupCount_setCount_self :
    ∀ (cat : Catalog) (name : String) (v c : Int),
      lookupCount cat name = some c →
      lookupCount (setCount cat name v) name = some v
  | [], _, _, _, h => by simp [lookupCount] at h
  | (n, c0) :: rest, name, v, c, h => by
      by_cases hn : n = name
      · simp [lookupCount, setCount, hn]
      · simp only [lookupCount, setCount, if_neg hn] at h ⊢
        exact lookupCount_setCount_self rest name v c h

theorem lookupCount_setCount_ne :
    ∀ (cat : Catalog) (name n' : String) (v : Int), n' ≠ name →
      lookupCount (setCount cat name v) n' = lookupCount cat n'
  | [], _, _, _, _ => rfl
  | (n, c) :: rest, name, n', v, hne => by
      by_cases hn : n = name
      · subst hn
        have hnn : ¬ n = n' := fun h => hne (h ▸ rfl)
        simp [lookupCount, setCount, hnn]
      · by_cases hn' : n = n'
        · subst hn'
          simp [lookupCount, setCount, hn]
        · simp only [lookupCount, setCount, if_neg hn, if_neg hn']
          exact lookupCount_setCount_ne rest name n' v hne

theorem get_current_counts_congr (cat cat' : Catalog)
    (es : List MedicineEntry)
    (h : ∀ e ∈ es, lookupCount cat e.name = lookupCount cat' e.name) :
    get_current_counts cat es = get_current_counts cat' es := by
  unfold get_current_counts
  exact List.map_congr_left h

theorem filter_eq_nil_of_lookupCount_none :
    ∀ (cat : Catalog) (name : String), lookupCount cat name = none →
      cat.filter (fun p => p.1 = name) = []
  | [], _, _ => rfl
  | (n, c) :: rest, name, h => by
      by_cases hn : n = name
      · simp [lookupCount, hn] at h
      · simp only [lookupCount, if_neg hn] at h
        simpa [List.filter_cons, hn] using
          filter_eq_nil_of_lookupCount_none rest name h

/-! ## Theorems settling the claims -/

/-- Claim C1 (refuted, code bug): atomicity of `/reserve` on business
rejection fails.  On catalog a=5, b=5, reserving [(a,3),(b,6)] responds
`ERROR`, but the already committed decrement on a is never compensated:
a's count is left at 2 instead of its pre-request value 5.  The source
comments announce "restore up to i-th medicine" yet no restore happens. -/
theorem reserve_error_response_keeps_partial_decrements :
    ((reserve ⟨[⟨"a", 3⟩, ⟨"b", 6⟩], "alice"⟩ sampleRid sampleLineIds
        ⟨[("a", 5), ("b", 5)], []⟩).2.type = ResponseType.ERROR)
    ∧ lookupCount (reserve ⟨[⟨"a", 3⟩, ⟨"b", 6⟩], "alice"⟩ sampleRid
        sampleLineIds ⟨[("a", 5), ("b", 5)], []⟩).1.catalog "a" = some 2 := by
  constructor <;> rfl

/-- Claim C2 (refuted, code bug): the conservation invariant
`catalog_count(m) + Σ reserved(m)` is not preserved by `/reserve`: a
single (sequential, N = 1) call on catalog a=5, b=5 reserving
[(a,3),(b,6)] drops the conserved sum for a from 5 to 2 — the decrement
on a is committed, the request fails on b, and no compensation or line
insertion balances it. -/
theorem reserve_violates_conservation_sum :
    conservationSum ⟨[("a", 5), ("b", 5)], []⟩ "a" = 5
    ∧ conservationSum (reserve ⟨[⟨"a", 3⟩, ⟨"b", 6⟩], "alice"⟩ sampleRid
        sampleLineIds ⟨[("a", 5), ("b", 5)], []⟩).1 "a" = 2 := by
  constructor <;> rfl

/-- Claim C3 (refuted, code bug): `/reserve` does not act on a
non-applied CAS.  Reserving [(a,3),(a,3)] on catalog a=5 reaches the
second entry with the catalog already at a=2; the second conditional
decrement binds expected value 5 and is not applied — yet the workflow
proceeds, inserts both lines and responds `INFO` instead of compensating
and responding `ERROR`. -/
theorem reserve_proceeds_after_unapplied_cas :
    ((casSetCount [("a", 2)] "a" 2 5).2 = false)
    ∧ ((reserve ⟨[⟨"a", 3⟩, ⟨"a", 3⟩], "bob"⟩ sampleRid sampleLineIds
        ⟨[("a", 5)], []⟩).2.type = ResponseType.INFO)
    ∧ ((reserve ⟨[⟨"a", 3⟩, ⟨"a", 3⟩], "bob"⟩ sampleRid sampleLineIds
        ⟨[("a", 5)], []⟩).1.reservations.length = 2)
    ∧ lookupCount (reserve ⟨[⟨"a", 3⟩, ⟨"a", 3⟩], "bob"⟩ sampleRid
        sampleLineIds ⟨[("a", 5)], []⟩).1.catalog "a" = some 2 := by
  refine ⟨rfl, rfl, rfl, rfl⟩

/-- Claim C4 (refuted, code bug): duplicate-name requests are not
rejected.  Neither the message model nor the handler checks for repeated
names: reserving [(a,3),(a,3)] on catalog a=5 responds `INFO`, changes
a's count to 2 and inserts two reservation rows, where the claim demands
an `ERROR` response and no state change. -/
theorem reserve_inserts_duplicate_name_request :
    ((reserve ⟨[⟨"a", 3⟩, ⟨"a", 3⟩], "alice"⟩ sampleRid sampleLineIds
        ⟨[("a", 5)], []⟩).2.type = ResponseType.INFO)
    ∧ lookupCount (reserve ⟨[⟨"a", 3⟩, ⟨"a", 3⟩], "alice"⟩ sampleRid
        sampleLineIds ⟨[("a", 5)], []⟩).1.catalog "a" = some 2
    ∧ ((reserve ⟨[⟨"a", 3⟩, ⟨"a", 3⟩], "alice"⟩ sampleRid sampleLineIds
        ⟨[("a", 5)], []⟩).1.reservations.length = 2) := by
  refine ⟨rfl, rfl, rfl⟩

/-- Claim C8 (refuted, code bug): `GET /medicine` for a name with no
catalog row does not return a null medicine object with `INFO` — the
handler calls `dict` on the `None` returned by `.one()`, raising a
`TypeError` that nothing catches, so the exception escapes across the
HTTP boundary. -/
theorem medicine_missing_row_raises (cat : Catalog) (name : String)
    (h : lookupCount cat name = none) :
    medicine cat name = PyOutcome.raised "TypeError" := by
  unfold medicine
  rw [filter_eq_nil_of_lookupCount_none cat name h]
  rfl

/-- Concrete instance of `medicine_missing_row_raises`: the catalog
holds only a, and querying zzz raises. -/
theorem medicine_missing_row_raises_witness :
    lookupCount [("a", 5)] "zzz" = none
    ∧ medicine [("a", 5)] "zzz" = PyOutcome.raised "TypeError" :=
  ⟨rfl, medicine_missing_row_raises [("a", 5)] "zzz" rfl⟩

/-- Claim C6 (confirmed): boundary behaviour of a single-entry `/reserve`
in isolation.  When the entry's count equals the current catalog count
the request succeeds with `INFO` and msg "Reserved successfully: <id>"
and the count becomes 0; when it exceeds the current count the request
fails with `ERROR` and the store is unchanged. -/
theorem reserve_single_entry_boundary (cat : Catalog)
    (rows : List ReservationRow) (name acct rid : String)
    (lineIds : Nat → String) (current : Int)
    (h : lookupCount cat name = some current) :
    ((reserve ⟨[⟨name, current⟩], acct⟩ rid lineIds ⟨cat, rows⟩).2
        = { type := ResponseType.INFO
            msg := "Reserved successfully: " ++ rid }
      ∧ lookupCount (reserve ⟨[⟨name, current⟩], acct⟩ rid lineIds
          ⟨cat, rows⟩).1.catalog name = some 0)
    ∧ ∀ c : Int, current < c →
        ((reserve ⟨[⟨name, c⟩], acct⟩ rid lineIds ⟨cat, rows⟩).2.type
            = ResponseType.ERROR
          ∧ (reserve ⟨[⟨name, c⟩], acct⟩ rid lineIds ⟨cat, rows⟩).1
              = ⟨cat, rows⟩) := by
  constructor
  · have key : reserveCas
        ([(⟨name, current⟩ : MedicineEntry)].zip
          (get_current_counts cat [⟨name, current⟩])) cat
        = (setCount cat name (current - current), none) := by
      simp [get_current_counts, reserveCas, casSetCount, h]
    constructor
    · simp [reserve, key]
    · simp only [reserve, key]
      have := lookupCount_setCount_self cat name (current - current) current h
      simpa using this
  · intro c hc
    have key : reserveCas
        ([(⟨name, c⟩ : MedicineEntry)].zip
          (get_current_counts cat [⟨name, c⟩])) cat
        = (cat, some { type := ResponseType.ERROR
                       msg := cannotReserveMsg name c current }) := by
      simp [get_current_counts, reserveCas, casSetCount, h, hc]
    constructor
    · simp [reserve, key]
    · simp [reserve, key]

/-- Concrete instance of `reserve_single_entry_boundary`: catalog
para=10, reserving 10 succeeds leaving 0, reserving more fails leaving
the store unchanged. -/
theorem reserve_single_entry_boundary_witness :
    lookupCount [("para", 10)] "para" = some 10
    ∧ (((reserve ⟨[⟨"para", 10⟩], "alice"⟩ sampleRid sampleLineIds
          ⟨[("para", 10)], []⟩).2
          = { type := ResponseType.INFO
              msg := "Reserved successfully: " ++ sampleRid }
        ∧ lookupCount (reserve ⟨[⟨"para", 10⟩], "alice"⟩ sampleRid
            sampleLineIds ⟨[("para", 10)], []⟩).1.catalog "para" = some 0)
      ∧ ∀ c : Int, 10 < c →
          ((reserve ⟨[⟨"para", c⟩], "alice"⟩ sampleRid sampleLineIds
              ⟨[("para", 10)], []⟩).2.type = ResponseType.ERROR
            ∧ (reserve ⟨[⟨"para", c⟩], "alice"⟩ sampleRid sampleLineIds
                ⟨[("para", 10)], []⟩).1 = ⟨[("para", 10)], []⟩)) :=
  ⟨rfl, reserve_single_entry_boundary [("para", 10)] [] "para" "alice"
    sampleRid sampleLineIds 10 rfl⟩

/-- Claim C10 (confirmed): a `/reserve` with an empty entries list
responds `INFO` with "Reserved successfully: <fresh id>", changes
nothing in the store, and a following `/query` on the fresh id responds
`ERROR` "No such reservation". -/
theorem reserve_empty_entries (st : Store) (acct rid : String)
    (lineIds : Nat → String) (hfmt : isUuidFormat rid = true)
    (hfresh : ∀ r ∈ st.reservations, r.reservation_id ≠ rid) :
    reserve ⟨[], acct⟩ rid lineIds st
      = (st, { type := ResponseType.INFO
               msg := "Reserved successfully: " ++ rid })
    ∧ query (reserve ⟨[], acct⟩ rid lineIds st).1.reservations rid
      = Sum.inr { type := ResponseType.ERROR
                  msg := "No such reservation" } := by
  have hres : reserve ⟨[], acct⟩ rid lineIds st
      = (st, { type := ResponseType.INFO
               msg := "Reserved successfully: " ++ rid }) := by
    simp [reserve, get_current_counts, reserveCas, reservationLines]
  refine ⟨hres, ?_⟩
  rw [hres]
  have hsel : selectReservation st.reservations rid = [] := by
    unfold selectReservation
    rw [List.filter_eq_nil_iff]
    intro r hr
    simpa using hfresh r hr
  simp [query, retrieve_single_reservation, parseUuid, hfmt, hsel]

/-- Concrete instance of `reserve_empty_entries`: an empty-entry reserve
against a one-row store leaves it unchanged and the fresh id is not
queryable. -/
theorem reserve_empty_entries_witness :
    (isUuidFormat sampleRid = true
      ∧ ∀ r ∈ ([⟨"11111111-1111-4111-8111-111111111111", "l0", "alice",
          "a", 2⟩] : List ReservationRow), r.reservation_id ≠ sampleRid)
    ∧ (reserve ⟨[], "bob"⟩ sampleRid sampleLineIds
        ⟨[("a", 5)], [⟨"11111111-1111-4111-8111-111111111111", "l0",
          "alice", "a", 2⟩]⟩
        = (⟨[("a", 5)], [⟨"11111111-1111-4111-8111-111111111111", "l0",
            "alice", "a", 2⟩]⟩,
          { type := ResponseType.INFO
            msg := "Reserved successfully: " ++ sampleRid })
      ∧ query (reserve ⟨[], "bob"⟩ sampleRid sampleLineIds
          ⟨[("a", 5)], [⟨"11111111-1111-4111-8111-111111111111", "l0",
            "alice", "a", 2⟩]⟩).1.reservations sampleRid
        = Sum.inr { type := ResponseType.ERROR
                    msg := "No such reservation" }) :=
  ⟨⟨by decide, by decide⟩,
    reserve_empty_entries
      ⟨[("a", 5)], [⟨"11111111-1111-4111-8111-111111111111", "l0",
        "alice", "a", 2⟩]⟩ "bob" sampleRid sampleLineIds
      (by decide) (by decide)⟩

theorem reserveCas_all_applied :
    ∀ (entries : List MedicineEntry) (cat : Catalog),
      (entries.map (fun x => x.name)).Nodup →
      (∀ x ∈ entries, ∃ c : Int,
          lookupCount cat x.name = some c ∧ x.count ≤ c) →
      (reserveCas (entries.zip (get_current_counts cat entries)) cat).2 = none
      ∧ (∀ x ∈ entries, ∀ c : Int, lookupCount cat x.name = some c →
          lookupCount
            (reserveCas (entries.zip (get_current_counts cat entries)) cat).1
            x.name = some (c - x.count))
      ∧ ∀ n : String, n ∉ entries.map (fun x => x.name) →
          lookupCount
            (reserveCas (entries.zip (get_current_counts cat entries)) cat).1
            n = lookupCount cat n := by
  intro entries
  induction entries with
  | nil =>
      intro cat _ _
      exact ⟨rfl, by simp, fun n _ => rfl⟩
  | cons e rest ih =>
      intro cat hnodup hok
      obtain ⟨c, hc, hle⟩ := hok e (List.mem_cons_self e rest)
      have hnodup' := List.nodup_cons.mp (hnodup : (e.name :: rest.map (fun x => x.name)).Nodup)
      have hnotin : e.name ∉ rest.map (fun x => x.name) := hnodup'.1
      have hrestnodup : (rest.map (fun x => x.name)).Nodup := hnodup'.2
      have hceq : ∀ x ∈ rest,
          lookupCount (setCount cat e.name (c - e.count)) x.name
            = lookupCount cat x.name := by
        intro x hx
        apply lookupCount_setCount_ne
        intro hxe
        exact hnotin (hxe ▸ List.mem_map_of_mem (fun y => y.name) hx)
      have hstep :
          reserveCas ((e :: rest).zip (get_current_counts cat (e :: rest))) cat
            = reserveCas
                (rest.zip
                  (get_current_counts (setCount cat e.name (c - e.count)) rest))
                (setCount cat e.name (c - e.count)) := by
        simp only [get_current_counts, List.map_cons, List.zip_cons_cons, hc,
          reserveCas]
        rw [if_neg (not_lt.mpr hle)]
        have hcas : (casSetCount cat e.name (c - e.count) c).1
            = setCount cat e.name (c - e.count) := by
          simp [casSetCount, hc]
        rw [hcas]
        have hcongr : get_current_counts cat rest
            = get_current_counts (setCount cat e.name (c - e.count)) rest :=
          get_current_counts_congr _ _ _ (fun x hx => (hceq x hx).symm)
        rw [show rest.map (fun x => lookupCount cat x.name)
            = get_current_counts cat rest from rfl, hcongr]
        rfl
      have hok1 : ∀ x ∈ rest, ∃ c' : Int,
          lookupCount (setCount cat e.name (c - e.count)) x.name = some c'
            ∧ x.count ≤ c' := by
        intro x hx
        obtain ⟨c', h', hle'⟩ := hok x (List.mem_cons_of_mem e hx)
        exact ⟨c', by rw [hceq x hx]; exact h', hle'⟩
      obtain ⟨ih1, ih2, ih3⟩ :=
        ih (setCount cat e.name (c - e.count)) hrestnodup hok1
      refine ⟨by rw [hstep]; exact ih1, ?_, ?_⟩
      · intro x hx c0 hc0
        rcases List.mem_cons.mp hx with hxe | hxr
        · subst hxe
          have hc0c : c0 = c := Option.some.inj (hc0.symm.trans hc)
          subst hc0c
          rw [hstep, ih3 x.name hnotin]
          exact lookupCount_setCount_self cat x.name (c0 - x.count) c0 hc
        · rw [hstep]
          exact ih2 x hxr c0 (by rw [hceq x hxr]; exact hc0)
      · intro n hn
        have hn1 : n ≠ e.name := by
          intro h
          exact hn (by simp [h])
        have hn2 : n ∉ rest.map (fun x => x.name) := by
          intro h
          exact hn (List.mem_cons_of_mem _ h)
        rw [hstep, ih3 n hn2]
        exact lookupCount_setCount_ne cat e.name n (c - e.count) hn1

theorem reservationLines_entries (rid : String) (lids : Nat → String)
    (acct : String) (es : List MedicineEntry) :
    (reservationLines rid lids acct es).map
      (fun r => (⟨r.medicine, r.count⟩ : MedicineEntry)) = es := by
  unfold reservationLines
  rw [List.map_map]
  have hfun : ((fun r : ReservationRow =>
      (⟨r.medicine, r.count⟩ : MedicineEntry)) ∘
        (fun p : Nat × MedicineEntry =>
          ({ reservation_id := rid, line_id := lids p.1, account_name := acct,
             medicine := p.2.name, count := p.2.count } : ReservationRow)))
      = Prod.snd := by
    funext p
    rfl
  rw [hfun, List.enum_map_snd]

theorem mem_reservationLines_of_mem (rid : String) (lids : Nat → String)
    (acct : String) (es : List MedicineEntry) (e : MedicineEntry)
    (he : e ∈ es) :
    ∃ row ∈ reservationLines rid lids acct es,
      row.medicine = e.name ∧ row.count = e.count := by
  have hmap := reservationLines_entries rid lids acct es
  rw [← hmap] at he
  obtain ⟨row, hrow, hproj⟩ := List.mem_map.mp he
  exact ⟨row, hrow, by rw [← hproj], by rw [← hproj]⟩

theorem reserve_eq_of_casResult (item : MedicineReservations) (rid : String)
    (lineIds : Nat → String) (st : Store)
    (h : (reserveCas
        (item.entries.zip (get_current_counts st.catalog item.entries))
        st.catalog).2 = none) :
    reserve item rid lineIds st =
      ({ catalog := (reserveCas
            (item.entries.zip (get_current_counts st.catalog item.entries))
            st.catalog).1
         reservations := st.reservations ++
           reservationLines rid lineIds item.account_name item.entries },
       { type := ResponseType.INFO
         msg := "Reserved successfully: " ++ rid }) := by
  rcases hres : reserveCas
      (item.entries.zip (get_current_counts st.catalog item.entries))
      st.catalog with ⟨cat', o⟩
  rw [hres] at h
  have h2 : o = none := h
  subst h2
  simp [reserve, hres]

/-- Claim C9 as stated is refuted at a concrete input: every entry name
exists in the catalog (counts read back [5, 5]) and the first entry has
count -1 ≤ 0, yet the response is `ERROR`, not `INFO`, because the other
entry oversubscribes. -/
theorem reserve_nonpositive_entry_claim_fails :
    (get_current_counts [("a", 5), ("b", 5)] [⟨"a", -1⟩, ⟨"b", 6⟩]
        = [some 5, some 5])
    ∧ ((⟨"a", -1⟩ : MedicineEntry).count ≤ 0)
    ∧ ((reserve ⟨[⟨"a", -1⟩, ⟨"b", 6⟩], "alice"⟩ sampleRid sampleLineIds
        ⟨[("a", 5), ("b", 5)], []⟩).2.type = ResponseType.ERROR) :=
  ⟨rfl, by decide, rfl⟩

/-- Claim C9 (corrected): no positivity check on entry counts.  For every
`/reserve` request whose entry names are pairwise distinct (the input
contract of §4.2) and all exist in the catalog, where every entry's
count is at most its current count — automatic for entries with
count ≤ 0 against a non-negative catalog — and some entry has
count ≤ 0: the server responds `INFO`, sets every entry's catalog count
to current − count (hence does not decrease stock at the non-positive
entry, strictly increasing it when count < 0), and inserts a reservation
line whose count is non-positive. -/
theorem reserve_accepts_nonpositive_counts (cat : Catalog)
    (rows : List ReservationRow) (item : MedicineReservations)
    (rid : String) (lineIds : Nat → String)
    (hnodup : (item.entries.map (fun x => x.name)).Nodup)
    (hok : ∀ x ∈ item.entries, ∃ c : Int,
        lookupCount cat x.name = some c ∧ x.count ≤ c)
    (e : MedicineEntry) (he : e ∈ item.entries) (hnp : e.count ≤ 0) :
    (reserve item rid lineIds ⟨cat, rows⟩).2.type = ResponseType.INFO
    ∧ (∀ x ∈ item.entries, ∀ c : Int, lookupCount cat x.name = some c →
        lookupCount (reserve item rid lineIds ⟨cat, rows⟩).1.catalog x.name
          = some (c - x.count))
    ∧ (∀ c : Int, lookupCount cat e.name = some c →
        ∃ c' : Int,
          lookupCount (reserve item rid lineIds ⟨cat, rows⟩).1.catalog e.name
              = some c' ∧ c ≤ c')
    ∧ ∃ row ∈ (reserve item rid lineIds ⟨cat, rows⟩).1.reservations,
        row.medicine = e.name ∧ row.count = e.count ∧ row.count ≤ 0 := by
  obtain ⟨h1, h2, h3⟩ := reserveCas_all_applied item.entries cat hnodup hok
  rw [reserve_eq_of_casResult item rid lineIds ⟨cat, rows⟩ h1]
  refine ⟨rfl, fun x hx c hc => h2 x hx c hc, ?_, ?_⟩
  · intro c hc
    refine ⟨c - e.count, h2 e he c hc, by omega⟩
  · obtain ⟨row, hrow, hmed, hcnt⟩ :=
      mem_reservationLines_of_mem rid lineIds item.account_name
        item.entries e he
    exact ⟨row, List.mem_append_right _ hrow, hmed, hcnt, by omega⟩

/-- Concrete instance of `reserve_accepts_nonpositive_counts`: a
single-entry reserve of count -2 on catalog a=5 responds `INFO` and
raises the stock. -/
theorem reserve_accepts_nonpositive_counts_witness :
    ((([(⟨"a", -2⟩ : MedicineEntry)]).map (fun x => x.name)).Nodup
      ∧ (⟨"a", -2⟩ : MedicineEntry).count ≤ 0)
    ∧ ((reserve ⟨[⟨"a", -2⟩], "alice"⟩ sampleRid sampleLineIds
          ⟨[("a", 5)], []⟩).2.type = ResponseType.INFO
      ∧ (∀ x ∈ ([(⟨"a", -2⟩ : MedicineEntry)]), ∀ c : Int,
          lookupCount [("a", 5)] x.name = some c →
          lookupCount (reserve ⟨[⟨"a", -2⟩], "alice"⟩ sampleRid sampleLineIds
            ⟨[("a", 5)], []⟩).1.catalog x.name = some (c - x.count))
      ∧ (∀ c : Int, lookupCount [("a", 5)] "a" = some c →
          ∃ c' : Int,
            lookupCount (reserve ⟨[⟨"a", -2⟩], "alice"⟩ sampleRid
              sampleLineIds ⟨[("a", 5)], []⟩).1.catalog "a" = some c'
            ∧ c ≤ c')
      ∧ ∃ row ∈ (reserve ⟨[⟨"a", -2⟩], "alice"⟩ sampleRid sampleLineIds
            ⟨[("a", 5)], []⟩).1.reservations,
          row.medicine = "a" ∧ row.count = -2 ∧ row.count ≤ 0) :=
  ⟨⟨by decide, by decide⟩,
    reserve_accepts_nonpositive_counts [("a", 5)] []
      ⟨[⟨"a", -2⟩], "alice"⟩ sampleRid sampleLineIds
      (by decide)
      (by
        intro x hx
        rw [List.mem_singleton] at hx
        subst hx
        exact ⟨5, rfl, by decide⟩)
      ⟨"a", -2⟩ (List.mem_singleton.mpr rfl) (by decide)⟩

theorem updateCas_all_applied (prev : String → Int) :
    ∀ (entries : List MedicineEntry) (cat : Catalog),
      (entries.map (fun x => x.name)).Nodup →
      (∀ x ∈ entries, ∃ c : Int,
          lookupCount cat x.name = some c ∧ x.count ≤ c + prev x.name) →
      (updateCas prev (entries.zip (get_current_counts cat entries)) cat).2
        = none
      ∧ (∀ x ∈ entries, ∀ c : Int, lookupCount cat x.name = some c →
          lookupCount
            (updateCas prev (entries.zip (get_current_counts cat entries))
              cat).1 x.name = some (c + prev x.name - x.count))
      ∧ ∀ n : String, n ∉ entries.map (fun x => x.name) →
          lookupCount
            (updateCas prev (entries.zip (get_current_counts cat entries))
              cat).1 n = lookupCount cat n := by
  intro entries
  induction entries with
  | nil =>
      intro cat _ _
      exact ⟨rfl, by simp, fun n _ => rfl⟩
  | cons e rest ih =>
      intro cat hnodup hok
      obtain ⟨c, hc, hle⟩ := hok e (List.mem_cons_self e rest)
      have hnodup' := List.nodup_cons.mp
        (hnodup : (e.name :: rest.map (fun x => x.name)).Nodup)
      have hnotin : e.name ∉ rest.map (fun x => x.name) := hnodup'.1
      have hrestnodup : (rest.map (fun x => x.name)).Nodup := hnodup'.2
      have hceq : ∀ x ∈ rest,
          lookupCount (setCount cat e.name (c + prev e.name - e.count)) x.name
            = lookupCount cat x.name := by
        intro x hx
        apply lookupCount_setCount_ne
        intro hxe
        exact hnotin (hxe ▸ List.mem_map_of_mem (fun y => y.name) hx)
      have hstep :
          updateCas prev ((e :: rest).zip (get_current_counts cat (e :: rest)))
              cat
            = updateCas prev
                (rest.zip (get_current_counts
                  (setCount cat e.name (c + prev e.name - e.count)) rest))
                (setCount cat e.name (c + prev e.name - e.count)) := by
        simp only [get_current_counts, List.map_cons, List.zip_cons_cons, hc,
          updateCas]
        rw [if_neg (not_lt.mpr hle)]
        have hcas : (casSetCount cat e.name (c + prev e.name - e.count) c).1
            = setCount cat e.name (c + prev e.name - e.count) := by
          simp [casSetCount, hc]
        rw [hcas]
        have hcongr : get_current_counts cat rest
            = get_current_counts
                (setCount cat e.name (c + prev e.name - e.count)) rest :=
          get_current_counts_congr _ _ _ (fun x hx => (hceq x hx).symm)
        rw [show rest.map (fun x => lookupCount cat x.name)
            = get_current_counts cat rest from rfl, hcongr]
        rfl
      have hok1 : ∀ x ∈ rest, ∃ c' : Int,
          lookupCount (setCount cat e.name (c + prev e.name - e.count)) x.name
            = some c' ∧ x.count ≤ c' + prev x.name := by
        intro x hx
        obtain ⟨c', h', hle'⟩ := hok x (List.mem_cons_of_mem e hx)
        exact ⟨c', by rw [hceq x hx]; exact h', hle'⟩
      obtain ⟨ih1, ih2, ih3⟩ :=
        ih (setCount cat e.name (c + prev e.name - e.count)) hrestnodup hok1
      refine ⟨by rw [hstep]; exact ih1, ?_, ?_⟩
      · intro x hx c0 hc0
        rcases List.mem_cons.mp hx with hxe | hxr
        · subst hxe
          have hc0c : c0 = c := Option.some.inj (hc0.symm.trans hc)
          subst hc0c
          rw [hstep, ih3 x.name hnotin]
          exact lookupCount_setCount_self cat x.name
            (c0 + prev x.name - x.count) c0 hc
        · rw [hstep]
          exact ih2 x hxr c0 (by rw [hceq x hxr]; exact hc0)
      · intro n hn
        have hn1 : n ≠ e.name := by
          intro h
          exact hn (by simp [h])
        have hn2 : n ∉ rest.map (fun x => x.name) := by
          intro h
          exact hn (List.mem_cons_of_mem _ h)
        rw [hstep, ih3 n hn2]
        exact lookupCount_setCount_ne cat e.name n
          (c + prev e.name - e.count) hn1

theorem retrieve_single_of_select (rows : List ReservationRow) (id : String)
    (hid : isUuidFormat id = true) (first : ReservationRow)
    (rest : List ReservationRow)
    (hsel : selectReservation rows id = first :: rest) :
    retrieve_single_reservation rows id =
      Sum.inl { id := id
                account_name := first.account_name
                entries := (first :: rest).map (fun r =>
                  (⟨r.medicine, r.count⟩ : MedicineEntry)) } := by
  simp [retrieve_single_reservation, parseUuid, hid, hsel]

theorem reservationLines_id (rid : String) (lids : Nat → String)
    (acct : String) (es : List MedicineEntry) :
    ∀ row ∈ reservationLines rid lids acct es, row.reservation_id = rid := by
  intro row hrow
  unfold reservationLines at hrow
  obtain ⟨p, _, hp⟩ := List.mem_map.mp hrow
  rw [← hp]

theorem selectReservation_replaced (rows : List ReservationRow)
    (rid : String) (lids : Nat → String) (acct : String)
    (es : List MedicineEntry) :
    selectReservation
      ((rows.filter (fun r => r.reservation_id ≠ rid)) ++
        reservationLines rid lids acct es) rid
      = reservationLines rid lids acct es := by
  unfold selectReservation
  rw [List.filter_append]
  have h1 : (rows.filter (fun r => r.reservation_id ≠ rid)).filter
      (fun r => r.reservation_id = rid) = [] := by
    rw [List.filter_eq_nil_iff]
    intro r hr
    have hmem := (List.mem_filter.mp hr).2
    simp at hmem ⊢
    exact hmem
  have h2 : (reservationLines rid lids acct es).filter
      (fun r => r.reservation_id = rid) = reservationLines rid lids acct es := by
    rw [List.filter_eq_self]
    intro r hr
    simp [reservationLines_id rid lids acct es r hr]
  rw [h1, h2, List.nil_append]

theorem update_eq_of_success (item : UpdateReservation)
    (lineIds : Nat → String) (st : Store)
    (reservation : ReservationEntryItem)
    (hres : retrieve_single_reservation st.reservations item.id
      = Sum.inl reservation)
    (hcas : (updateCas (prevReserved reservation.entries)
        (item.entries.zip (get_current_counts st.catalog item.entries))
        st.catalog).2 = none) :
    update item lineIds st =
      ({ catalog := (updateCas (prevReserved reservation.entries)
            (item.entries.zip (get_current_counts st.catalog item.entries))
            st.catalog).1
         reservations :=
           (st.reservations.filter
             (fun r => r.reservation_id ≠ reservation.id)) ++
             reservationLines reservation.id lineIds
               reservation.account_name item.entries },
       { type := ResponseType.INFO
         msg := "Update successfully: " ++ reservation.id }) := by
  rcases hu : updateCas (prevReserved reservation.entries)
      (item.entries.zip (get_current_counts st.catalog item.entries))
      st.catalog with ⟨cat', o⟩
  rw [hu] at hcas
  have h2 : o = none := hcas
  subst h2
  simp [update, hres, hu]

theorem reservationLines_cons (rid : String) (lids : Nat → String)
    (acct : String) (e : MedicineEntry) (es : List MedicineEntry) :
    reservationLines rid lids acct (e :: es)
      = ({ reservation_id := rid, line_id := lids 0, account_name := acct,
           medicine := e.name, count := e.count } : ReservationRow)
        :: (es.enumFrom 1).map (fun p =>
          ({ reservation_id := rid, line_id := lids p.1, account_name := acct,
             medicine := p.2.name, count := p.2.count } : ReservationRow)) :=
  rfl

/-- Claim C5 as stated is refuted at two concrete inputs, each forcing
one hypothesis of the amended claim.  (1) New entries that repeat a
name: catalog a=10, reservation (a,4), `/update` to [(a,2),(a,3)].
Both entries satisfy count ≤ limit = 10 + 4; the response is `INFO`,
but a's final count is 12 (the second conditional write expects the
stale snapshot 10 and is silently not applied), not
limit − count = 14 − 3 = 11 as the claim demands for the second entry.
(2) An empty new entry list, which satisfies every hypothesis of the
claim vacuously: the response is `INFO`, but the update deletes all
lines of the reservation and inserts none, so the immediately following
`/query` answers `ERROR` "No such reservation" instead of yielding the
new entries. -/
theorem update_postcondition_counterexamples :
    (((update ⟨sampleRid, [⟨"a", 2⟩, ⟨"a", 3⟩]⟩ sampleLineIds
        ⟨[("a", 10)], [⟨sampleRid, "l0", "alice", "a", 4⟩]⟩).2.type
      = ResponseType.INFO)
    ∧ lookupCount (update ⟨sampleRid, [⟨"a", 2⟩, ⟨"a", 3⟩]⟩ sampleLineIds
        ⟨[("a", 10)], [⟨sampleRid, "l0", "alice", "a", 4⟩]⟩).1.catalog "a"
      = some 12
    ∧ ((12 : Int) ≠ 10 + 4 - 3))
    ∧ ((update ⟨sampleRid, []⟩ sampleLineIds
        ⟨[("a", 10)], [⟨sampleRid, "l0", "alice", "a", 4⟩]⟩).2.type
      = ResponseType.INFO)
    ∧ query (update ⟨sampleRid, []⟩ sampleLineIds
        ⟨[("a", 10)], [⟨sampleRid, "l0", "alice", "a", 4⟩]⟩).1.reservations
        sampleRid
      = Sum.inr { type := ResponseType.ERROR
                  msg := "No such reservation" } :=
  ⟨⟨rfl, rfl, by decide⟩, rfl, rfl⟩

/-- Claim C5 (corrected): postcondition of a successful `/update`, for
new entries with pairwise-distinct names (duplicate names break the
catalog-count postcondition, part (1) of the counterexample; the
reservation-line data model also requires distinct medicines) and a
non-empty entry list (an empty one breaks the query postcondition,
part (2) of the counterexample).
Given a reservation whose id parses and exists, and new entries all
naming existing medicines with count ≤ current + prev_reserved, the
response is `INFO`, each named medicine's count becomes
limit − entry.count, the reservation's lines are replaced by exactly the
new entries under the same `reservation_id` and `account_name`, and an
immediate `/query` on the id yields the new entries. -/
theorem update_success_postcondition (st : Store)
    (item : UpdateReservation) (lineIds : Nat → String)
    (first : ReservationRow) (rest : List ReservationRow)
    (hid : isUuidFormat item.id = true)
    (hsel : selectReservation st.reservations item.id = first :: rest)
    (hnodup : (item.entries.map (fun x => x.name)).Nodup)
    (hne : item.entries ≠ [])
    (hok : ∀ x ∈ item.entries, ∃ c : Int,
        lookupCount st.catalog x.name = some c
          ∧ x.count ≤ c + prevReserved ((first :: rest).map (fun r =>
              (⟨r.medicine, r.count⟩ : MedicineEntry))) x.name) :
    (update item lineIds st).2.type = ResponseType.INFO
    ∧ (∀ x ∈ item.entries, ∀ c : Int,
        lookupCount st.catalog x.name = some c →
        lookupCount (update item lineIds st).1.catalog x.name
          = some (c + prevReserved ((first :: rest).map (fun r =>
              (⟨r.medicine, r.count⟩ : MedicineEntry))) x.name - x.count))
    ∧ selectReservation (update item lineIds st).1.reservations item.id
        = reservationLines item.id lineIds first.account_name item.entries
    ∧ query (update item lineIds st).1.reservations item.id
        = Sum.inl { type := ResponseType.INFO
                    id := item.id
                    account_name := first.account_name
                    entries := item.entries } := by
  have hres := retrieve_single_of_select st.reservations item.id hid
    first rest hsel
  obtain ⟨h1, h2, h3⟩ := updateCas_all_applied
    (prevReserved ((first :: rest).map (fun r =>
      (⟨r.medicine, r.count⟩ : MedicineEntry))))
    item.entries st.catalog hnodup hok
  rw [update_eq_of_success item lineIds st _ hres h1]
  have hpost : selectReservation
      ((st.reservations.filter (fun r => r.reservation_id ≠ item.id)) ++
        reservationLines item.id lineIds first.account_name item.entries)
      item.id
      = reservationLines item.id lineIds first.account_name item.entries :=
    selectReservation_replaced st.reservations item.id lineIds
      first.account_name item.entries
  refine ⟨rfl, fun x hx c hc => h2 x hx c hc, hpost, ?_⟩
  rcases hentries : item.entries with _ | ⟨e0, es'⟩
  · exact absurd hentries hne
  have hmap := reservationLines_entries item.id lineIds
    first.account_name item.entries
  rw [hentries] at hpost hmap
  rw [reservationLines_cons] at hpost hmap
  have hretr := retrieve_single_of_select _ item.id hid _ _ hpost
  simp only [query, hentries, reservationLines_cons]
  rw [hretr]
  simp [hmap]

/-- Concrete instance of `update_success_postcondition`: spec scenario
4 — catalog para=6 with reservation (para,4), updated to (para,7);
`INFO`, catalog 3, query returns the new entry. -/
theorem update_success_postcondition_witness :
    (isUuidFormat sampleRid = true
      ∧ selectReservation [⟨sampleRid, "l0", "alice", "para", 4⟩] sampleRid
          = [⟨sampleRid, "l0", "alice", "para", 4⟩])
    ∧ ((update ⟨sampleRid, [⟨"para", 7⟩]⟩ sampleLineIds
          ⟨[("para", 6)], [⟨sampleRid, "l0", "alice", "para", 4⟩]⟩).2.type
        = ResponseType.INFO
      ∧ (∀ x ∈ ([(⟨"para", 7⟩ : MedicineEntry)]), ∀ c : Int,
          lookupCount [("para", 6)] x.name = some c →
          lookupCount (update ⟨sampleRid, [⟨"para", 7⟩]⟩ sampleLineIds
            ⟨[("para", 6)], [⟨sampleRid, "l0", "alice", "para", 4⟩]⟩).1.catalog
            x.name
            = some (c + prevReserved
                (([(⟨sampleRid, "l0", "alice", "para", 4⟩ :
                    ReservationRow)]).map (fun r =>
                  (⟨r.medicine, r.count⟩ : MedicineEntry))) x.name - x.count))
      ∧ selectReservation (update ⟨sampleRid, [⟨"para", 7⟩]⟩ sampleLineIds
            ⟨[("para", 6)], [⟨sampleRid, "l0", "alice", "para", 4⟩]⟩).1.reservations
            sampleRid
          = reservationLines sampleRid sampleLineIds "alice" [⟨"para", 7⟩]
      ∧ query (update ⟨sampleRid, [⟨"para", 7⟩]⟩ sampleLineIds
            ⟨[("para", 6)], [⟨sampleRid, "l0", "alice", "para", 4⟩]⟩).1.reservations
            sampleRid
          = Sum.inl { type := ResponseType.INFO
                      id := sampleRid
                      account_name := "alice"
                      entries := [⟨"para", 7⟩] }) :=
  ⟨⟨by decide, rfl⟩,
    update_success_postcondition
      ⟨[("para", 6)], [⟨sampleRid, "l0", "alice", "para", 4⟩]⟩
      ⟨sampleRid, [⟨"para", 7⟩]⟩ sampleLineIds
      ⟨sampleRid, "l0", "alice", "para", 4⟩ []
      (by decide) rfl (by decide) (by decide)
      (by
        intro x hx
        rw [List.mem_singleton] at hx
        subst hx
        exact ⟨6, rfl, by decide⟩)⟩

theorem groupRuns_sound :
    ∀ rows : List ReservationRow,
      (∀ g ∈ groupRuns rows, ∀ r ∈ g.1 :: g.2,
        r ∈ rows ∧ r.reservation_id = g.1.reservation_id)
      ∧ ∀ r ∈ rows, ∃ g ∈ groupRuns rows, r ∈ g.1 :: g.2 := by
  intro rows
  induction rows with
  | nil => exact ⟨by simp [groupRuns], by simp⟩
  | cons r rest ih =>
      obtain ⟨ihS, ihC⟩ := ih
      rcases hg : groupRuns rest with _ | ⟨⟨s, run⟩, gs⟩
      · rw [hg] at ihC
        constructor
        · intro g hgmem x hx
          simp only [groupRuns, hg, List.mem_singleton] at hgmem
          subst hgmem
          simp only [List.mem_singleton] at hx
          subst hx
          exact ⟨List.mem_cons_self x rest, rfl⟩
        · intro x hx
          rcases List.mem_cons.mp hx with hxe | hxr
          · subst hxe
            refine ⟨(x, []), ?_, List.mem_cons_self x []⟩
            simp [groupRuns, hg]
          · obtain ⟨g, hgmem, _⟩ := ihC x hxr
            exact absurd hgmem (List.not_mem_nil g)
      · rw [hg] at ihS ihC
        by_cases hk : r.reservation_id = s.reservation_id
        · have hgroups : groupRuns (r :: rest) = (r, s :: run) :: gs := by
            simp [groupRuns, hg, hk]
          rw [hgroups]
          constructor
          · intro g hgmem x hx
            rcases List.mem_cons.mp hgmem with hge | hgtail
            · subst hge
              rcases List.mem_cons.mp hx with hxe | hxrun
              · subst hxe
                exact ⟨List.mem_cons_self x rest, rfl⟩
              · obtain ⟨hxrest, hxkey⟩ :=
                  ihS (s, run) (List.mem_cons_self _ _) x hxrun
                exact ⟨List.mem_cons_of_mem r hxrest, hxkey.trans hk.symm⟩
            · obtain ⟨hxrest, hxkey⟩ := ihS g (List.mem_cons_of_mem _ hgtail) x hx
              exact ⟨List.mem_cons_of_mem r hxrest, hxkey⟩
          · intro x hx
            rcases List.mem_cons.mp hx with hxe | hxr
            · subst hxe
              exact ⟨(x, s :: run), List.mem_cons_self _ _,
                List.mem_cons_self _ _⟩
            · obtain ⟨g, hgmem, hxg⟩ := ihC x hxr
              rcases List.mem_cons.mp hgmem with hge | hgtail
              · subst hge
                exact ⟨(r, s :: run), List.mem_cons_self _ _,
                  List.mem_cons_of_mem r hxg⟩
              · exact ⟨g, List.mem_cons_of_mem _ hgtail, hxg⟩
        · have hgroups : groupRuns (r :: rest) = (r, []) :: (s, run) :: gs := by
            simp [groupRuns, hg, hk]
          rw [hgroups]
          constructor
          · intro g hgmem x hx
            rcases List.mem_cons.mp hgmem with hge | hgtail
            · subst hge
              simp only [List.mem_singleton] at hx
              subst hx
              exact ⟨List.mem_cons_self x rest, rfl⟩
            · obtain ⟨hxrest, hxkey⟩ := ihS g hgtail x hx
              exact ⟨List.mem_cons_of_mem r hxrest, hxkey⟩
          · intro x hx
            rcases List.mem_cons.mp hx with hxe | hxr
            · subst hxe
              exact ⟨(x, []), List.mem_cons_self _ _, List.mem_cons_self x []⟩
            · obtain ⟨g, hgmem, hxg⟩ := ihC x hxr
              exact ⟨g, List.mem_cons_of_mem _ hgmem, hxg⟩

theorem groupRuns_find? :
    ∀ rows : List ReservationRow, (runKeys rows).Nodup →
      ∀ g ∈ groupRuns rows,
        rows.find? (fun s => s.reservation_id = g.1.reservation_id)
          = some g.1 := by
  intro rows
  induction rows with
  | nil =>
      intro _ g hg
      simp [groupRuns] at hg
  | cons r rest ih =>
      intro hnd g hgmem
      rcases hg : groupRuns rest with _ | ⟨⟨s, run⟩, gs⟩
      · simp only [groupRuns, hg, List.mem_singleton] at hgmem
        subst hgmem
        exact List.find?_cons_of_pos _ (by simp)
      · by_cases hk : r.reservation_id = s.reservation_id
        · have hgroups : groupRuns (r :: rest) = (r, s :: run) :: gs := by
            simp [groupRuns, hg, hk]
          have hkeys : runKeys (r :: rest)
              = r.reservation_id :: gs.map (fun g => g.1.reservation_id) := by
            simp [runKeys, hgroups]
          rw [hkeys] at hnd
          have hnotin := (List.nodup_cons.mp hnd).1
          have hndtail := (List.nodup_cons.mp hnd).2
          have hndrest : (runKeys rest).Nodup := by
            have : runKeys rest
                = s.reservation_id :: gs.map (fun g => g.1.reservation_id) := by
              simp [runKeys, hg]
            rw [this, List.nodup_cons]
            exact ⟨hk ▸ hnotin, hndtail⟩
          rw [hgroups] at hgmem
          rcases List.mem_cons.mp hgmem with hge | hgtail
          · subst hge
            exact List.find?_cons_of_pos _ (by simp)
          · have hkey_mem : g.1.reservation_id
                ∈ gs.map (fun g => g.1.reservation_id) :=
              List.mem_map_of_mem _ hgtail
            have hne : ¬ r.reservation_id = g.1.reservation_id := by
              intro h
              exact hnotin (h ▸ hkey_mem)
            rw [List.find?_cons_of_neg _ (by simpa using hne)]
            exact ih hndrest g (hg ▸ List.mem_cons_of_mem _ hgtail)
        · have hgroups : groupRuns (r :: rest)
              = (r, []) :: (s, run) :: gs := by
            simp [groupRuns, hg, hk]
          have hkeys : runKeys (r :: rest)
              = r.reservation_id :: runKeys rest := by
            simp [runKeys, hgroups, hg]
          rw [hkeys] at hnd
          have hnotin := (List.nodup_cons.mp hnd).1
          have hndrest := (List.nodup_cons.mp hnd).2
          rw [hgroups] at hgmem
          rcases List.mem_cons.mp hgmem with hge | hgtail
          · subst hge
            exact List.find?_cons_of_pos _ (by simp)
          · have hkey_mem : g.1.reservation_id ∈ runKeys rest := by
              rw [runKeys, hg]
              exact List.mem_map_of_mem _ hgtail
            have hne : ¬ r.reservation_id = g.1.reservation_id := by
              intro h
              exact hnotin (h ▸ hkey_mem)
            rw [List.find?_cons_of_neg _ (by simpa using hne)]
            exact ih hndrest g (hg ▸ hgtail)

/-- Claim C7 as stated is refuted: `itertools.groupby` groups only
consecutive rows, so three store rows with reservation_ids A, B, A
produce three reservation objects with ids [A, B, A] — two objects for
the single distinct id A, not exactly one. -/
theorem retrieve_reservations_splits_nonadjacent_ids :
    ((retrieve_reservations
        [⟨"aaaaaaaa-0000-4000-8000-000000000000", "l1", "u1", "m1", 1⟩,
         ⟨"bbbbbbbb-0000-4000-8000-000000000000", "l2", "u2", "m2", 1⟩,
         ⟨"aaaaaaaa-0000-4000-8000-000000000000", "l3", "u1", "m3", 1⟩]).map
      (fun it => it.id)
      = ["aaaaaaaa-0000-4000-8000-000000000000",
         "bbbbbbbb-0000-4000-8000-000000000000",
         "aaaaaaaa-0000-4000-8000-000000000000"])
    ∧ ¬ ((retrieve_reservations
        [⟨"aaaaaaaa-0000-4000-8000-000000000000", "l1", "u1", "m1", 1⟩,
         ⟨"bbbbbbbb-0000-4000-8000-000000000000", "l2", "u2", "m2", 1⟩,
         ⟨"aaaaaaaa-0000-4000-8000-000000000000", "l3", "u1", "m3", 1⟩]).map
      (fun it => it.id)).Nodup := ⟨rfl, by decide⟩

/-- Claim C7 (corrected): grouping contract of `/query-account` and
`/query-all`.  The aggregation groups with `itertools.groupby`, i.e. by
equality on consecutive rows; whenever rows with equal `reservation_id`
are adjacent in the store-returned order (runs pairwise distinct — the
store returns partition rows contiguously), it emits exactly one
reservation object per distinct `reservation_id` occurring in the rows,
and each object's `account_name` is taken from its group's first row =
the first store row bearing that id. -/
theorem retrieve_reservations_grouping (rows : List ReservationRow)
    (hadj : (runKeys rows).Nodup) :
    ((retrieve_reservations rows).map (fun it => it.id)).Nodup
    ∧ (∀ u : String,
        (∃ it ∈ retrieve_reservations rows, it.id = u)
          ↔ ∃ r ∈ rows, r.reservation_id = u)
    ∧ ∀ it ∈ retrieve_reservations rows,
        ∃ r : ReservationRow,
          rows.find? (fun s => s.reservation_id = it.id) = some r
            ∧ it.account_name = r.account_name := by
  have hids : (retrieve_reservations rows).map (fun it => it.id)
      = runKeys rows := by
    simp [retrieve_reservations, runKeys, List.map_map]
  obtain ⟨hsound, hcover⟩ := groupRuns_sound rows
  refine ⟨hids ▸ hadj, ?_, ?_⟩
  · intro u
    constructor
    · rintro ⟨it, hit, rfl⟩
      obtain ⟨g, hg, hgit⟩ := List.mem_map.mp hit
      obtain ⟨hmem, _⟩ := hsound g hg g.1 (List.mem_cons_self _ _)
      exact ⟨g.1, hmem, by rw [← hgit]⟩
    · rintro ⟨r, hr, rfl⟩
      obtain ⟨g, hg, hrg⟩ := hcover r hr
      obtain ⟨_, hkey⟩ := hsound g hg r hrg
      refine ⟨{ id := g.1.reservation_id
                account_name := g.1.account_name
                entries := (g.1 :: g.2).map (fun r =>
                  (⟨r.medicine, r.count⟩ : MedicineEntry)) },
        List.mem_map_of_mem _ hg, hkey.symm⟩
  · intro it hit
    obtain ⟨g, hg, hgit⟩ := List.mem_map.mp hit
    refine ⟨g.1, ?_, by rw [← hgit]⟩
    have := groupRuns_find? rows hadj g hg
    rw [← hgit]
    exact this

/-- Concrete instance of `retrieve_reservations_grouping`: rows with
adjacent equal ids A, A, B yield objects with ids [A, B], each account
name from the first row of its run. -/
theorem retrieve_reservations_grouping_witness :
    (runKeys
        [⟨"aaaaaaaa-0000-4000-8000-000000000000", "l1", "u1", "m1", 1⟩,
         ⟨"aaaaaaaa-0000-4000-8000-000000000000", "l2", "u1", "m2", 2⟩,
         ⟨"bbbbbbbb-0000-4000-8000-000000000000", "l3", "u2", "m3", 3⟩]).Nodup
    ∧ (((retrieve_reservations
        [⟨"aaaaaaaa-0000-4000-8000-000000000000", "l1", "u1", "m1", 1⟩,
         ⟨"aaaaaaaa-0000-4000-8000-000000000000", "l2", "u1", "m2", 2⟩,
         ⟨"bbbbbbbb-0000-4000-8000-000000000000", "l3", "u2", "m3", 3⟩]).map
          (fun it => it.id)).Nodup
      ∧ (∀ u : String,
          (∃ it ∈ retrieve_reservations
            [⟨"aaaaaaaa-0000-4000-8000-000000000000", "l1", "u1", "m1", 1⟩,
             ⟨"aaaaaaaa-0000-4000-8000-000000000000", "l2", "u1", "m2", 2⟩,
             ⟨"bbbbbbbb-0000-4000-8000-000000000000", "l3", "u2", "m3", 3⟩],
            it.id = u)
            ↔ ∃ r ∈ ([⟨"aaaaaaaa-0000-4000-8000-000000000000", "l1", "u1",
                "m1", 1⟩,
              ⟨"aaaaaaaa-0000-4000-8000-000000000000", "l2", "u1", "m2", 2⟩,
              ⟨"bbbbbbbb-0000-4000-8000-000000000000", "l3", "u2", "m3",
                3⟩] : List ReservationRow), r.reservation_id = u)
      ∧ ∀ it ∈ retrieve_reservations
            [⟨"aaaaaaaa-0000-4000-8000-000000000000", "l1", "u1", "m1", 1⟩,
             ⟨"aaaaaaaa-0000-4000-8000-000000000000", "l2", "u1", "m2", 2⟩,
             ⟨"bbbbbbbb-0000-4000-8000-000000000000", "l3", "u2", "m3", 3⟩],
          ∃ r : ReservationRow,
            ([⟨"aaaaaaaa-0000-4000-8000-000000000000", "l1", "u1", "m1", 1⟩,
              ⟨"aaaaaaaa-0000-4000-8000-000000000000", "l2", "u1", "m2", 2⟩,
              ⟨"bbbbbbbb-0000-4000-8000-000000000000", "l3", "u2", "m3",
                3⟩] : List ReservationRow).find?
              (fun s => s.reservation_id = it.id) = some r
              ∧ it.account_name = r.account_name) :=
  ⟨by decide,
    retrieve_reservations_grouping
      [⟨"aaaaaaaa-0000-4000-8000-000000000000", "l1", "u1", "m1", 1⟩,
       ⟨"aaaaaaaa-0000-4000-8000-000000000000", "l2", "u1", "m2", 2⟩,
       ⟨"bbbbbbbb-0000-4000-8000-000000000000", "l3", "u2", "m3", 3⟩]
      (by decide)⟩

end BigMedicine
